import Mathlib

set_option maxRecDepth 100000

/-!
Verification of the binary codec layer of the port staking program.

The development shallowly embeds the Rust source:
* `StakingInstruction` with `pack` / `unpack` (src/instruction.rs);
* `StakeAccount` and `StakingPool` with `pack_into_slice` / `unpack_from_slice`
  and the checked entry points `encode` / `decode` (src/state/*.rs).

Bytes are modelled as natural numbers; every machine-integer field is a `Nat`
whose Rust type range (`< 2 ^ 64`, `< 256`, ...) appears as an explicit
well-formedness predicate.  Fallible operations return `Except CodecError`.
-/

/-- Little-endian interpretation of a byte list, as in `u64::from_le_bytes`. -/
def leToNat : List Nat → Nat
  | [] => 0
  | b :: bs => b + 256 * leToNat bs

/-- The `w` little-endian bytes of `n`, as in `u64::to_le_bytes` (for `w = 8`),
`u8::to_le_bytes` (for `w = 1`). -/
def natToLe : Nat → Nat → List Nat
  | 0, _ => []
  | w + 1, n => n % 256 :: natToLe w (n / 256)

/-- Modelled from the spec: the error taxonomy of the codec layer.  The
repository's `error.rs` (the `StakingError` enum) is not under src/; the spec
names the three failure kinds `MalformedInstruction` (the code's
`StakingError::InstructionUnpackError`), `BufferTooSmall` (a record buffer
shorter than its fixed length) and `UnsupportedVersion` (the
`ProgramError::InvalidAccountData` returned at the version gate). -/
inductive CodecError
  | malformedInstruction
  | bufferTooSmall
  | unsupportedVersion
  deriving DecidableEq, Repr

/-- The instruction sum type of src/instruction.rs.  Integer fields are `Nat`
(Rust `u64` / `u8`); public keys are byte lists (Rust `Pubkey` = 32 bytes). -/
inductive StakingInstruction
  | InitStakingPool (supply duration earliest_reward_claim_time : Nat)
      (bump_seed_staking_program : Nat)
      (pool_owner_authority admin_authority : List Nat)
  | CreateStakeAccount
  | Deposit (amount : Nat)
  | Withdraw (amount : Nat)
  | ClaimReward
  deriving DecidableEq, Repr

/-- Source `StakingInstruction::unpack_u64`: errors when fewer than 8 bytes remain,
otherwise reads 8 little-endian bytes and returns the rest. -/
def StakingInstruction.unpack_u64 (input : List Nat) :
    Except CodecError (Nat × List Nat) :=
  if input.length < 8 then Except.error CodecError.malformedInstruction
  else Except.ok (leToNat (input.take 8), input.drop 8)

/-- Source `StakingInstruction::unpack_u8`: errors on empty input, otherwise reads
one byte. -/
def StakingInstruction.unpack_u8 (input : List Nat) :
    Except CodecError (Nat × List Nat) :=
  if input.length = 0 then Except.error CodecError.malformedInstruction
  else Except.ok (leToNat (input.take 1), input.drop 1)

/-- Source `StakingInstruction::unpack_pubkey`: errors when fewer than 32 bytes
remain, otherwise reads a raw 32-byte key. -/
def StakingInstruction.unpack_pubkey (input : List Nat) :
    Except CodecError (List Nat × List Nat) :=
  if input.length < 32 then Except.error CodecError.malformedInstruction
  else Except.ok (input.take 32, input.drop 32)

/-- Source `StakingInstruction::unpack`: split the first byte as the tag, dispatch on
it, then require the remainder to be fully consumed. -/
def StakingInstruction.unpack (input : List Nat) :
    Except CodecError StakingInstruction :=
  (match input with
    | [] => Except.error CodecError.malformedInstruction
    | tag :: rest =>
      match tag with
      | 0 => do
        let (supply, rest) ← StakingInstruction.unpack_u64 rest
        let (duration, rest) ← StakingInstruction.unpack_u64 rest
        let (earliest_reward_claim_time, rest) ← StakingInstruction.unpack_u64 rest
        let (bump_seed_staking_program, rest) ← StakingInstruction.unpack_u8 rest
        let (pool_owner_authority, rest) ← StakingInstruction.unpack_pubkey rest
        let (admin_authority, rest) ← StakingInstruction.unpack_pubkey rest
        Except.ok (StakingInstruction.InitStakingPool supply duration
          earliest_reward_claim_time bump_seed_staking_program
          pool_owner_authority admin_authority, rest)
      | 1 => Except.ok (StakingInstruction.CreateStakeAccount, rest)
      | 2 => do
        let (amount, rest) ← StakingInstruction.unpack_u64 rest
        Except.ok (StakingInstruction.Deposit amount, rest)
      | 3 => do
        let (amount, rest) ← StakingInstruction.unpack_u64 rest
        Except.ok (StakingInstruction.Withdraw amount, rest)
      | 4 => Except.ok (StakingInstruction.ClaimReward, rest)
      | _ => Except.error CodecError.malformedInstruction) >>=
  fun (ins, rest) =>
    if rest.isEmpty then Except.ok ins
    else Except.error CodecError.malformedInstruction

/-- Source `StakingInstruction::pack`: the tag byte followed by the fields in
declared order, integers little-endian, keys raw.  Total: packing never
fails. -/
def StakingInstruction.pack : StakingInstruction → List Nat
  | StakingInstruction.InitStakingPool supply duration earliest_reward_claim_time
      bump_seed_staking_program pool_owner_authority admin_authority =>
      0 :: (natToLe 8 supply ++ natToLe 8 duration ++
        natToLe 8 earliest_reward_claim_time ++
        natToLe 1 bump_seed_staking_program ++
        pool_owner_authority ++ admin_authority)
  | StakingInstruction.CreateStakeAccount => [1]
  | StakingInstruction.Deposit amount => 2 :: natToLe 8 amount
  | StakingInstruction.Withdraw amount => 3 :: natToLe 8 amount
  | StakingInstruction.ClaimReward => [4]

/-- The Rust field types' value ranges: `u64` fields below `2 ^ 64`, `u8`
fields below `256`, `Pubkey` fields are 32 bytes. -/
def StakingInstruction.Wf : StakingInstruction → Prop
  | StakingInstruction.InitStakingPool supply duration earliest_reward_claim_time
      bump_seed_staking_program pool_owner_authority admin_authority =>
      supply < 2 ^ 64 ∧ duration < 2 ^ 64 ∧
      earliest_reward_claim_time < 2 ^ 64 ∧
      bump_seed_staking_program < 256 ∧
      pool_owner_authority.length = 32 ∧ (∀ b ∈ pool_owner_authority, b < 256) ∧
      admin_authority.length = 32 ∧ (∀ b ∈ admin_authority, b < 256)
  | StakingInstruction.CreateStakeAccount => True
  | StakingInstruction.Deposit amount => amount < 2 ^ 64
  | StakingInstruction.Withdraw amount => amount < 2 ^ 64
  | StakingInstruction.ClaimReward => True

instance (x : StakingInstruction) : Decidable x.Wf := by
  cases x <;> simp only [StakingInstruction.Wf] <;> infer_instance

/-- Constant `PROGRAM_VERSION` from src/state/mod.rs: current version of the program
and all new accounts created. -/
def PROGRAM_VERSION : Nat := 1

/-- Constant `UNINITIALIZED_VERSION` from src/state/mod.rs: accounts are created with
data zeroed out, so uninitialized state instances have version 0. -/
def UNINITIALIZED_VERSION : Nat := 0

/-- Modelled from the spec: the external `FixedPointDecimal` collaborator
(`solana_maths::Decimal`), not part of this repository.  The spec specifies
only its wire contract: a fixed-length byte encoding with its own pack and
unpack.  The value is the scaled magnitude (wads); the fixed length is
16 bytes, so representable values are below `2 ^ 128`. -/
structure Decimal where
  wads : Nat
  deriving DecidableEq, Repr

/-- Modelled from the spec: the collaborator's fixed encoded length. -/
def Decimal.LEN : Nat := 16

/-- Modelled from the spec: the collaborator's pack writes the scaled value
as `Decimal.LEN` little-endian bytes. -/
def Decimal.packBytes (d : Decimal) : List Nat :=
  natToLe Decimal.LEN d.wads

/-- Modelled from the spec: the collaborator's unpack reads `Decimal.LEN`
little-endian bytes. -/
def Decimal.unpackBytes (bs : List Nat) : Decimal :=
  Decimal.mk (leToNat bs)

/-- Constant `PUBKEY_BYTES`: a Solana public key is 32 raw bytes. -/
def PUBKEY_BYTES : Nat := 32

/-- The `StakeAccount` struct of src/state/stake_account.rs.  Integer fields
are `Nat` (Rust `u8` / `u64`); keys and the four reserved `[u8; 32]` arrays
are byte lists. -/
structure StakeAccount where
  version : Nat
  start_rate : Decimal
  owner : List Nat
  pool_pubkey : List Nat
  deposited_amount : Nat
  unclaimed_reward_wads : Decimal
  reserve_fields1 : List Nat
  reserve_fields2 : List Nat
  reserve_fields3 : List Nat
  reserve_fields4 : List Nat
  deriving DecidableEq, Repr

/-- Source `StakeAccount::is_initialized` (the `IsInitialized` impl). -/
def StakeAccount.is_initialized (s : StakeAccount) : Bool :=
  s.version != UNINITIALIZED_VERSION

/-- Source `StakeAccount::LEN` = `1 + Decimal::LEN + PUBKEY_BYTES + PUBKEY_BYTES + 8 +
Decimal::LEN + 128` (= 233). -/
def StakeAccount.LEN : Nat :=
  1 + Decimal.LEN + PUBKEY_BYTES + PUBKEY_BYTES + 8 + Decimal.LEN + 128

/-- The bytes `StakeAccount::pack_into_slice` writes: each field at its fixed
offset, in chunk order `version | start_rate | owner | pool_pubkey |
deposited_amount | unclaimed_reward_wads`.  The trailing 128-byte reserved
chunk is carved out by `mut_array_refs` but never assigned, so no bytes are
produced for it here. -/
def StakeAccount.fieldBytes (s : StakeAccount) : List Nat :=
  natToLe 1 s.version ++ s.start_rate.packBytes ++ s.owner ++ s.pool_pubkey ++
    natToLe 8 s.deposited_amount ++ s.unclaimed_reward_wads.packBytes

/-- Source `StakeAccount::pack_into_slice`: overwrite the written field region of
`dst` in place, leaving the rest of the buffer (the reserved region and any
bytes past `LEN`) untouched.  `none` models the `array_mut_ref!` panic when
`dst` is shorter than `LEN`. -/
def StakeAccount.pack_into_slice (s : StakeAccount) (dst : List Nat) :
    Option (List Nat) :=
  if dst.length < StakeAccount.LEN then none
  else some (s.fieldBytes ++ dst.drop s.fieldBytes.length)

/-- Source `StakeAccount::unpack_from_slice`: read each field at its fixed offset of
the first `LEN` bytes; gate on the version; decoded reserved fields are fresh
zero arrays.  Translated from the source body, which is reached only with at
least `LEN` bytes (`array_ref!` panics otherwise; the checked entry point
`StakeAccount.decode` below guards the length). -/
def StakeAccount.unpack_from_slice (src : List Nat) :
    Except CodecError StakeAccount :=
  let version := leToNat (src.take 1)
  if PROGRAM_VERSION < version then Except.error CodecError.unsupportedVersion
  else
    Except.ok
      (StakeAccount.mk version
        (Decimal.unpackBytes ((src.drop 1).take Decimal.LEN))
        ((src.drop 17).take PUBKEY_BYTES)
        ((src.drop 49).take PUBKEY_BYTES)
        (leToNat ((src.drop 81).take 8))
        (Decimal.unpackBytes ((src.drop 89).take Decimal.LEN))
        (List.replicate 32 0) (List.replicate 32 0)
        (List.replicate 32 0) (List.replicate 32 0))

/-- Modelled from the spec: the checked decode entry point.  The length check
lives in the external `Pack` trait wrapper (not under src/); per the spec a
buffer shorter than `LEN` fails with `BufferTooSmall`, otherwise the fields
are read by `unpack_from_slice`. -/
def StakeAccount.decode (src : List Nat) : Except CodecError StakeAccount :=
  if src.length < StakeAccount.LEN then Except.error CodecError.bufferTooSmall
  else StakeAccount.unpack_from_slice src

/-- The Rust field types' value ranges for `StakeAccount`: `u8` below 256,
`u64` below `2 ^ 64`, decimals representable in `Decimal.LEN` bytes, keys and
reserved arrays of 32 bytes each. -/
def StakeAccount.Wf (s : StakeAccount) : Prop :=
  s.version < 256 ∧
  s.start_rate.wads < 2 ^ 128 ∧
  s.owner.length = 32 ∧ (∀ b ∈ s.owner, b < 256) ∧
  s.pool_pubkey.length = 32 ∧ (∀ b ∈ s.pool_pubkey, b < 256) ∧
  s.deposited_amount < 2 ^ 64 ∧
  s.unclaimed_reward_wads.wads < 2 ^ 128 ∧
  s.reserve_fields1.length = 32 ∧ (∀ b ∈ s.reserve_fields1, b < 256) ∧
  s.reserve_fields2.length = 32 ∧ (∀ b ∈ s.reserve_fields2, b < 256) ∧
  s.reserve_fields3.length = 32 ∧ (∀ b ∈ s.reserve_fields3, b < 256) ∧
  s.reserve_fields4.length = 32 ∧ (∀ b ∈ s.reserve_fields4, b < 256)

instance (s : StakeAccount) : Decidable s.Wf := by
  unfold StakeAccount.Wf
  infer_instance

/-- The `StakingPool` struct of src/state/staking_pool.rs. -/
structure StakingPool where
  version : Nat
  owner_authority : List Nat
  admin_authority : List Nat
  reward_token_pool : List Nat
  last_update : Nat
  end_time : Nat
  earliest_reward_claim_time : Nat
  duration : Nat
  rate_per_slot : Decimal
  cumulative_rate : Decimal
  pool_size : Nat
  bump_seed_staking_program : Nat
  reserve_fields1 : List Nat
  reserve_fields2 : List Nat
  reserve_fields3 : List Nat
  reserve_fields4 : List Nat
  deriving DecidableEq, Repr

/-- Source `StakingPool::is_initialized` (the `IsInitialized` impl). -/
def StakingPool.is_initialized (p : StakingPool) : Bool :=
  p.version != UNINITIALIZED_VERSION

/-- Source `StakingPool::LEN` = `1 + 3 * PUBKEY_BYTES + 4 * 8 + 2 * Decimal::LEN + 8 +
1 + 128` (= 298), summed in the source's chunk order. -/
def StakingPool.LEN : Nat :=
  1 + PUBKEY_BYTES + PUBKEY_BYTES + PUBKEY_BYTES + 8 + 8 + 8 + 8 +
    Decimal.LEN + Decimal.LEN + 8 + 1 + 128

/-- The bytes `StakingPool::pack_into_slice` writes: chunk order `version |
owner_authority | admin_authority | reward_token_pool | last_update |
end_time | duration | earliest_reward_claim_time | rate_per_slot |
cumulative_rate | pool_size | bump_seed_staking_program`.  The trailing
128-byte reserved chunk is carved out by `mut_array_refs` but never
assigned. -/
def StakingPool.fieldBytes (p : StakingPool) : List Nat :=
  natToLe 1 p.version ++ p.owner_authority ++ p.admin_authority ++
    p.reward_token_pool ++ natToLe 8 p.last_update ++ natToLe 8 p.end_time ++
    natToLe 8 p.duration ++ natToLe 8 p.earliest_reward_claim_time ++
    p.rate_per_slot.packBytes ++ p.cumulative_rate.packBytes ++
    natToLe 8 p.pool_size ++ natToLe 1 p.bump_seed_staking_program

/-- Source `StakingPool::pack_into_slice`: overwrite the written field region of
`dst` in place, leaving the rest of the buffer untouched.  `none` models the
`array_mut_ref!` panic when `dst` is shorter than `LEN`. -/
def StakingPool.pack_into_slice (p : StakingPool) (dst : List Nat) :
    Option (List Nat) :=
  if dst.length < StakingPool.LEN then none
  else some (p.fieldBytes ++ dst.drop p.fieldBytes.length)

/-- Source `StakingPool::unpack_from_slice`: read each field at its fixed offset of
the first `LEN` bytes; gate on the version; decoded reserved fields are fresh
zero arrays.  Translated from the source body, which is reached only with at
least `LEN` bytes (`array_ref!` panics otherwise; the checked entry point
`StakingPool.decode` below guards the length). -/
def StakingPool.unpack_from_slice (src : List Nat) :
    Except CodecError StakingPool :=
  let version := leToNat (src.take 1)
  if PROGRAM_VERSION < version then Except.error CodecError.unsupportedVersion
  else
    Except.ok
      { version := version
        owner_authority := (src.drop 1).take PUBKEY_BYTES
        admin_authority := (src.drop 33).take PUBKEY_BYTES
        reward_token_pool := (src.drop 65).take PUBKEY_BYTES
        last_update := leToNat ((src.drop 97).take 8)
        end_time := leToNat ((src.drop 105).take 8)
        duration := leToNat ((src.drop 113).take 8)
        earliest_reward_claim_time := leToNat ((src.drop 121).take 8)
        rate_per_slot := Decimal.unpackBytes ((src.drop 129).take Decimal.LEN)
        cumulative_rate := Decimal.unpackBytes ((src.drop 145).take Decimal.LEN)
        pool_size := leToNat ((src.drop 161).take 8)
        bump_seed_staking_program := leToNat ((src.drop 169).take 1)
        reserve_fields1 := List.replicate 32 0
        reserve_fields2 := List.replicate 32 0
        reserve_fields3 := List.replicate 32 0
        reserve_fields4 := List.replicate 32 0 }

/-- Modelled from the spec: the checked decode entry point.  The length check
lives in the external `Pack` trait wrapper (not under src/); per the spec a
buffer shorter than `LEN` fails with `BufferTooSmall`, otherwise the fields
are read by `unpack_from_slice`. -/
def StakingPool.decode (src : List Nat) : Except CodecError StakingPool :=
  if src.length < StakingPool.LEN then Except.error CodecError.bufferTooSmall
  else StakingPool.unpack_from_slice src

/-- The Rust field types' value ranges for `StakingPool`. -/
def StakingPool.Wf (p : StakingPool) : Prop :=
  p.version < 256 ∧
  p.owner_authority.length = 32 ∧ (∀ b ∈ p.owner_authority, b < 256) ∧
  p.admin_authority.length = 32 ∧ (∀ b ∈ p.admin_authority, b < 256) ∧
  p.reward_token_pool.length = 32 ∧ (∀ b ∈ p.reward_token_pool, b < 256) ∧
  p.last_update < 2 ^ 64 ∧ p.end_time < 2 ^ 64 ∧
  p.duration < 2 ^ 64 ∧ p.earliest_reward_claim_time < 2 ^ 64 ∧
  p.rate_per_slot.wads < 2 ^ 128 ∧ p.cumulative_rate.wads < 2 ^ 128 ∧
  p.pool_size < 2 ^ 64 ∧ p.bump_seed_staking_program < 256 ∧
  p.reserve_fields1.length = 32 ∧ (∀ b ∈ p.reserve_fields1, b < 256) ∧
  p.reserve_fields2.length = 32 ∧ (∀ b ∈ p.reserve_fields2, b < 256) ∧
  p.reserve_fields3.length = 32 ∧ (∀ b ∈ p.reserve_fields3, b < 256) ∧
  p.reserve_fields4.length = 32 ∧ (∀ b ∈ p.reserve_fields4, b < 256)

instance (p : StakingPool) : Decidable p.Wf := by
  unfold StakingPool.Wf
  infer_instance

/-- A concrete well-formed stake account with zero reserved fields, used to
evaluate the codec at specific inputs. -/
def exampleStakeAccount : StakeAccount :=
  { version := 1
    start_rate := Decimal.mk 5
    owner := List.replicate 32 7
    pool_pubkey := List.replicate 32 8
    deposited_amount := 42
    unclaimed_reward_wads := Decimal.mk 9
    reserve_fields1 := List.replicate 32 0
    reserve_fields2 := List.replicate 32 0
    reserve_fields3 := List.replicate 32 0
    reserve_fields4 := List.replicate 32 0 }

/-- The value `exampleStakeAccount` stamped with version `PROGRAM_VERSION + 1`. -/
def exampleStakeAccountV2 : StakeAccount :=
  { exampleStakeAccount with version := PROGRAM_VERSION + 1 }

/-- A concrete well-formed staking pool with zero reserved fields. -/
def exampleStakingPool : StakingPool :=
  { version := 1
    owner_authority := List.replicate 32 7
    admin_authority := List.replicate 32 8
    reward_token_pool := List.replicate 32 9
    last_update := 11
    end_time := 12
    duration := 13
    earliest_reward_claim_time := 14
    rate_per_slot := Decimal.mk 15
    cumulative_rate := Decimal.mk 16
    pool_size := 17
    bump_seed_staking_program := 18
    reserve_fields1 := List.replicate 32 0
    reserve_fields2 := List.replicate 32 0
    reserve_fields3 := List.replicate 32 0
    reserve_fields4 := List.replicate 32 0 }

instance instDecidableEqExcept {e a : Type} [DecidableEq e] [DecidableEq a] :
    DecidableEq (Except e a) := by
  intro x y
  cases x <;> cases y <;>
    first
      | (apply isFalse
         intro h
         exact Except.noConfusion h)
      | (rename_i u v
         exact if h : u = v then isTrue (by rw [h])
           else isFalse (by intro hc; cases hc; exact h rfl))
/-- The input shapes accepted by `StakingInstruction.unpack`, stated from the
spec's description of the wire format (tag byte plus the exact field bytes of
that variant); compared against the source-translated `unpack` in C4. -/
def unpackAcceptedShape (input : List Nat) : Prop :=
  (input.head? = some 0 ∧ input.length = 90) ∨
  (input.head? = some 1 ∧ input.length = 1) ∨
  (input.head? = some 2 ∧ input.length = 9) ∨
  (input.head? = some 3 ∧ input.length = 9) ∨
  (input.head? = some 4 ∧ input.length = 1)

/-- The all-zero stake account, the value decoded from an all-zero buffer. -/
def zeroStakeAccount : StakeAccount :=
  { version := 0
    start_rate := Decimal.mk 0
    owner := List.replicate 32 0
    pool_pubkey := List.replicate 32 0
    deposited_amount := 0
    unclaimed_reward_wads := Decimal.mk 0
    reserve_fields1 := List.replicate 32 0
    reserve_fields2 := List.replicate 32 0
    reserve_fields3 := List.replicate 32 0
    reserve_fields4 := List.replicate 32 0 }

theorem natToLe_length (w n : Nat) : (natToLe w n).length = w := by
  induction w generalizing n with
  | zero => rfl
  | succ w ih => simp [natToLe, ih]

theorem leToNat_natToLe_of_lt {w n : Nat} (h : n < 256 ^ w) :
    leToNat (natToLe w n) = n := by
  induction w generalizing n with
  | zero =>
    simp only [Nat.pow_zero, Nat.lt_one_iff] at h
    simp [h, natToLe, leToNat]
  | succ w ih =>
    have hdiv : n / 256 < 256 ^ w := by
      apply Nat.div_lt_of_lt_mul
      rw [Nat.pow_succ] at h
      omega
    simp only [natToLe, leToNat, ih hdiv]
    omega

/-- Taking exactly the length of the left part of an append. -/
theorem take_append_len {α : Type} (l₁ l₂ : List α) {n : Nat}
    (h : l₁.length = n) : (l₁ ++ l₂).take n = l₁ := by
  subst h
  induction l₁ with
  | nil => simp
  | cons a l ih => simp [ih]

/-- Dropping exactly the length of the left part of an append. -/
theorem drop_append_len {α : Type} (l₁ l₂ : List α) {n : Nat}
    (h : l₁.length = n) : (l₁ ++ l₂).drop n = l₂ := by
  subst h
  induction l₁ with
  | nil => simp
  | cons a l ih => simp [ih]

theorem pow256_eight : (256 : Nat) ^ 8 = 2 ^ 64 := by norm_num

theorem except_bind_ok {e a b : Type} (x : a) (f : a → Except e b) :
    (Except.ok x >>= f) = f x := rfl

theorem except_bind_err {e a b : Type} (err : e) (f : a → Except e b) :
    ((Except.error err : Except e a) >>= f) = Except.error err := rfl

theorem unpack_u64_append (l rest : List Nat) (h : l.length = 8) :
    StakingInstruction.unpack_u64 (l ++ rest) = Except.ok (leToNat l, rest) := by
  have hlen : ¬ (l ++ rest).length < 8 := by rw [List.length_append, h]; omega
  simp [StakingInstruction.unpack_u64, hlen, take_append_len l rest h,
    drop_append_len l rest h]
  omega

theorem unpack_u64_exact (l : List Nat) (h : l.length = 8) :
    StakingInstruction.unpack_u64 l = Except.ok (leToNat l, []) := by
  have := unpack_u64_append l [] h
  simpa using this

theorem unpack_u8_append (l rest : List Nat) (h : l.length = 1) :
    StakingInstruction.unpack_u8 (l ++ rest) = Except.ok (leToNat l, rest) := by
  unfold StakingInstruction.unpack_u8
  rw [if_neg (by rw [List.length_append, h]; omega),
    take_append_len l rest h, drop_append_len l rest h]

theorem unpack_pubkey_append (l rest : List Nat) (h : l.length = 32) :
    StakingInstruction.unpack_pubkey (l ++ rest) = Except.ok (l, rest) := by
  have hlen : ¬ (l ++ rest).length < 32 := by rw [List.length_append, h]; omega
  simp [StakingInstruction.unpack_pubkey, hlen, take_append_len l rest h,
    drop_append_len l rest h]
  omega

theorem unpack_pubkey_exact (l : List Nat) (h : l.length = 32) :
    StakingInstruction.unpack_pubkey l = Except.ok (l, []) := by
  have := unpack_pubkey_append l [] h
  simpa using this

/-- C3: for every constructible instruction value (any variant, any field
values within the Rust types' ranges), unpacking the packed bytes succeeds
and returns the same value; `pack` itself is a total function and never
fails. -/
theorem c3_instruction_roundtrip (x : StakingInstruction) (h : x.Wf) :
    StakingInstruction.unpack x.pack = Except.ok x := by
  cases x with
  | InitStakingPool supply duration earliest bump pk1 pk2 =>
    obtain ⟨h1, h2, h3, h4, h5, -, h7, -⟩ := h
    simp only [StakingInstruction.pack, StakingInstruction.unpack,
      List.append_assoc,
      unpack_u64_append _ _ (natToLe_length 8 supply),
      unpack_u64_append _ _ (natToLe_length 8 duration),
      unpack_u64_append _ _ (natToLe_length 8 earliest),
      unpack_u8_append _ _ (natToLe_length 1 bump),
      unpack_pubkey_append _ _ h5,
      unpack_pubkey_exact _ h7,
      except_bind_ok, List.isEmpty_nil, if_true]
    rw [leToNat_natToLe_of_lt (by rw [pow256_eight]; exact h1),
      leToNat_natToLe_of_lt (by rw [pow256_eight]; exact h2),
      leToNat_natToLe_of_lt (by rw [pow256_eight]; exact h3),
      leToNat_natToLe_of_lt (by simpa using h4)]
  | CreateStakeAccount => rfl
  | Deposit amount =>
    simp only [StakingInstruction.pack, StakingInstruction.unpack,
      unpack_u64_exact _ (natToLe_length 8 amount), except_bind_ok,
      List.isEmpty_nil, if_true]
    rw [leToNat_natToLe_of_lt (by rw [pow256_eight]; exact h)]
  | Withdraw amount =>
    simp only [StakingInstruction.pack, StakingInstruction.unpack,
      unpack_u64_exact _ (natToLe_length 8 amount), except_bind_ok,
      List.isEmpty_nil, if_true]
    rw [leToNat_natToLe_of_lt (by rw [pow256_eight]; exact h)]
  | ClaimReward => rfl

/-- C3 witness: the round-trip theorem applied at `Deposit 1_000_000`. -/
theorem c3_witness :
    (StakingInstruction.Deposit 1000000).Wf ∧
    StakingInstruction.unpack (StakingInstruction.Deposit 1000000).pack =
      Except.ok (StakingInstruction.Deposit 1000000) :=
  ⟨by decide, c3_instruction_roundtrip (StakingInstruction.Deposit 1000000) (by decide)⟩

/-- C8: packing `Deposit 1_000_000` yields exactly the nine bytes
`[2, 64, 66, 15, 0, 0, 0, 0, 0]` (tag 2 then the u64 little-endian), and
unpacking those bytes returns `Deposit 1_000_000`. -/
theorem c8_deposit_concrete :
    StakingInstruction.pack (StakingInstruction.Deposit 1000000) =
      [2, 64, 66, 15, 0, 0, 0, 0, 0] ∧
    StakingInstruction.unpack [2, 64, 66, 15, 0, 0, 0, 0, 0] =
      Except.ok (StakingInstruction.Deposit 1000000) :=
  ⟨by decide, by decide⟩

/-- C10: the packed length depends only on the variant: 90 bytes for
`InitStakingPool` (1 + 8 + 8 + 8 + 1 + 32 + 32), 9 bytes for `Deposit` and
`Withdraw` (1 + 8), 1 byte for `CreateStakeAccount` and `ClaimReward`, for
every choice of field values (within the Rust types' ranges). -/
theorem c10_pack_length (x : StakingInstruction) (h : x.Wf) :
    (StakingInstruction.pack x).length =
      match x with
      | StakingInstruction.InitStakingPool _ _ _ _ _ _ => 90
      | StakingInstruction.CreateStakeAccount => 1
      | StakingInstruction.Deposit _ => 9
      | StakingInstruction.Withdraw _ => 9
      | StakingInstruction.ClaimReward => 1 := by
  cases x with
  | InitStakingPool supply duration earliest bump pk1 pk2 =>
    obtain ⟨-, -, -, -, h5, -, h7, -⟩ := h
    simp [StakingInstruction.pack, natToLe_length, h5, h7]
  | CreateStakeAccount => rfl
  | Deposit amount => simp [StakingInstruction.pack, natToLe_length]
  | Withdraw amount => simp [StakingInstruction.pack, natToLe_length]
  | ClaimReward => rfl

/-- C10 witness: the length theorem applied at a concrete
`InitStakingPool`. -/
theorem c10_witness :
    (StakingInstruction.InitStakingPool 7 8 9 10 (List.replicate 32 3)
      (List.replicate 32 4)).Wf ∧
    (StakingInstruction.pack (StakingInstruction.InitStakingPool 7 8 9 10
      (List.replicate 32 3) (List.replicate 32 4))).length = 90 :=
  ⟨by decide, c10_pack_length _ (by decide)⟩

theorem unpack_u64_eq (l : List Nat) (h : 8 ≤ l.length) :
    StakingInstruction.unpack_u64 l =
      Except.ok (leToNat (l.take 8), l.drop 8) := by
  unfold StakingInstruction.unpack_u64
  rw [if_neg (by omega)]

theorem unpack_u64_err (l : List Nat) (h : l.length < 8) :
    StakingInstruction.unpack_u64 l =
      Except.error CodecError.malformedInstruction := by
  unfold StakingInstruction.unpack_u64
  rw [if_pos h]

theorem unpack_u8_eq (l : List Nat) (h : 0 < l.length) :
    StakingInstruction.unpack_u8 l =
      Except.ok (leToNat (l.take 1), l.drop 1) := by
  unfold StakingInstruction.unpack_u8
  rw [if_neg (by omega)]

theorem unpack_u8_err (l : List Nat) (h : l.length = 0) :
    StakingInstruction.unpack_u8 l =
      Except.error CodecError.malformedInstruction := by
  unfold StakingInstruction.unpack_u8
  rw [if_pos h]

theorem unpack_pubkey_eq (l : List Nat) (h : 32 ≤ l.length) :
    StakingInstruction.unpack_pubkey l =
      Except.ok (l.take 32, l.drop 32) := by
  unfold StakingInstruction.unpack_pubkey
  rw [if_neg (by omega)]

theorem unpack_pubkey_err (l : List Nat) (h : l.length < 32) :
    StakingInstruction.unpack_pubkey l =
      Except.error CodecError.malformedInstruction := by
  unfold StakingInstruction.unpack_pubkey
  rw [if_pos h]

theorem unpack_tag0_eq (rest : List Nat) (h : rest.length = 89) :
    StakingInstruction.unpack (0 :: rest) = Except.ok
      (StakingInstruction.InitStakingPool
        (leToNat (rest.take 8))
        (leToNat ((rest.drop 8).take 8))
        (leToNat (((rest.drop 8).drop 8).take 8))
        (leToNat ((((rest.drop 8).drop 8).drop 8).take 1))
        (((((rest.drop 8).drop 8).drop 8).drop 1).take 32)
        ((((((rest.drop 8).drop 8).drop 8).drop 1).drop 32).take 32)) := by
  have hnil : (((((rest.drop 8).drop 8).drop 8).drop 1).drop 32).drop 32 = [] := by
    apply List.eq_nil_of_length_eq_zero
    simp [List.length_drop]
    omega
  simp only [StakingInstruction.unpack,
    unpack_u64_eq rest (by omega), except_bind_ok,
    unpack_u64_eq (rest.drop 8) (by simp [List.length_drop]; omega),
    unpack_u64_eq ((rest.drop 8).drop 8) (by simp [List.length_drop]; omega),
    unpack_u8_eq (((rest.drop 8).drop 8).drop 8) (by simp [List.length_drop]; omega),
    unpack_pubkey_eq ((((rest.drop 8).drop 8).drop 8).drop 1)
      (by simp [List.length_drop]; omega),
    unpack_pubkey_eq (((((rest.drop 8).drop 8).drop 8).drop 1).drop 32)
      (by simp [List.length_drop]; omega),
    hnil, List.isEmpty_nil, if_true]

theorem unpack_tag0_err (rest : List Nat) (h : rest.length ≠ 89) :
    StakingInstruction.unpack (0 :: rest) =
      Except.error CodecError.malformedInstruction := by
  by_cases h1 : rest.length < 8
  · simp only [StakingInstruction.unpack, unpack_u64_err rest h1, except_bind_err]
  by_cases h2 : rest.length < 16
  · simp only [StakingInstruction.unpack, unpack_u64_eq rest (by omega),
      except_bind_ok,
      unpack_u64_err (rest.drop 8) (by simp [List.length_drop]; omega),
      except_bind_err]
  by_cases h3 : rest.length < 24
  · simp only [StakingInstruction.unpack, unpack_u64_eq rest (by omega),
      except_bind_ok,
      unpack_u64_eq (rest.drop 8) (by simp [List.length_drop]; omega),
      unpack_u64_err ((rest.drop 8).drop 8) (by simp [List.length_drop]; omega),
      except_bind_err]
  by_cases h4 : rest.length < 25
  · simp only [StakingInstruction.unpack, unpack_u64_eq rest (by omega),
      except_bind_ok,
      unpack_u64_eq (rest.drop 8) (by simp [List.length_drop]; omega),
      unpack_u64_eq ((rest.drop 8).drop 8) (by simp [List.length_drop]; omega),
      unpack_u8_err (((rest.drop 8).drop 8).drop 8)
        (by simp [List.length_drop]; omega),
      except_bind_err]
  by_cases h5 : rest.length < 57
  · simp only [StakingInstruction.unpack, unpack_u64_eq rest (by omega),
      except_bind_ok,
      unpack_u64_eq (rest.drop 8) (by simp [List.length_drop]; omega),
      unpack_u64_eq ((rest.drop 8).drop 8) (by simp [List.length_drop]; omega),
      unpack_u8_eq (((rest.drop 8).drop 8).drop 8)
        (by simp [List.length_drop]; omega),
      unpack_pubkey_err ((((rest.drop 8).drop 8).drop 8).drop 1)
        (by simp [List.length_drop]; omega),
      except_bind_err]
  by_cases h6 : rest.length < 89
  · simp only [StakingInstruction.unpack, unpack_u64_eq rest (by omega),
      except_bind_ok,
      unpack_u64_eq (rest.drop 8) (by simp [List.length_drop]; omega),
      unpack_u64_eq ((rest.drop 8).drop 8) (by simp [List.length_drop]; omega),
      unpack_u8_eq (((rest.drop 8).drop 8).drop 8)
        (by simp [List.length_drop]; omega),
      unpack_pubkey_eq ((((rest.drop 8).drop 8).drop 8).drop 1)
        (by simp [List.length_drop]; omega),
      unpack_pubkey_err (((((rest.drop 8).drop 8).drop 8).drop 1).drop 32)
        (by simp [List.length_drop]; omega),
      except_bind_err]
  · have hne : ((((((rest.drop 8).drop 8).drop 8).drop 1).drop 32).drop 32).isEmpty = false := by
      cases hl : (((((rest.drop 8).drop 8).drop 8).drop 1).drop 32).drop 32 with
      | nil =>
        exfalso
        have hlen := congrArg List.length hl
        simp [List.length_drop] at hlen
        omega
      | cons a t => rfl
    simp only [StakingInstruction.unpack, unpack_u64_eq rest (by omega),
      except_bind_ok,
      unpack_u64_eq (rest.drop 8) (by simp [List.length_drop]; omega),
      unpack_u64_eq ((rest.drop 8).drop 8) (by simp [List.length_drop]; omega),
      unpack_u8_eq (((rest.drop 8).drop 8).drop 8)
        (by simp [List.length_drop]; omega),
      unpack_pubkey_eq ((((rest.drop 8).drop 8).drop 8).drop 1)
        (by simp [List.length_drop]; omega),
      unpack_pubkey_eq (((((rest.drop 8).drop 8).drop 8).drop 1).drop 32)
        (by simp [List.length_drop]; omega),
      hne, if_false]
    rfl

theorem unpack_tag1_eq (rest : List Nat) (h : rest = []) :
    StakingInstruction.unpack (1 :: rest) =
      Except.ok StakingInstruction.CreateStakeAccount := by
  subst h
  rfl

theorem unpack_tag1_err (rest : List Nat) (h : rest ≠ []) :
    StakingInstruction.unpack (1 :: rest) =
      Except.error CodecError.malformedInstruction := by
  cases rest with
  | nil => exact absurd rfl h
  | cons a t => rfl

theorem unpack_tag2_eq (rest : List Nat) (h : rest.length = 8) :
    StakingInstruction.unpack (2 :: rest) =
      Except.ok (StakingInstruction.Deposit (leToNat (rest.take 8))) := by
  have hnil : rest.drop 8 = [] := by
    apply List.eq_nil_of_length_eq_zero
    simp [List.length_drop]
    omega
  simp only [StakingInstruction.unpack, unpack_u64_eq rest (by omega),
    except_bind_ok, hnil, List.isEmpty_nil, if_true]

theorem unpack_tag2_err (rest : List Nat) (h : rest.length ≠ 8) :
    StakingInstruction.unpack (2 :: rest) =
      Except.error CodecError.malformedInstruction := by
  by_cases h1 : rest.length < 8
  · simp only [StakingInstruction.unpack, unpack_u64_err rest h1, except_bind_err]
  · have hne : (rest.drop 8).isEmpty = false := by
      cases hl : rest.drop 8 with
      | nil =>
        exfalso
        have hlen := congrArg List.length hl
        simp [List.length_drop] at hlen
        omega
      | cons a t => rfl
    simp only [StakingInstruction.unpack, unpack_u64_eq rest (by omega),
      except_bind_ok, hne, if_false]
    rfl

theorem unpack_tag3_eq (rest : List Nat) (h : rest.length = 8) :
    StakingInstruction.unpack (3 :: rest) =
      Except.ok (StakingInstruction.Withdraw (leToNat (rest.take 8))) := by
  have hnil : rest.drop 8 = [] := by
    apply List.eq_nil_of_length_eq_zero
    simp [List.length_drop]
    omega
  simp only [StakingInstruction.unpack, unpack_u64_eq rest (by omega),
    except_bind_ok, hnil, List.isEmpty_nil, if_true]

theorem unpack_tag3_err (rest : List Nat) (h : rest.length ≠ 8) :
    StakingInstruction.unpack (3 :: rest) =
      Except.error CodecError.malformedInstruction := by
  by_cases h1 : rest.length < 8
  · simp only [StakingInstruction.unpack, unpack_u64_err rest h1, except_bind_err]
  · have hne : (rest.drop 8).isEmpty = false := by
      cases hl : rest.drop 8 with
      | nil =>
        exfalso
        have hlen := congrArg List.length hl
        simp [List.length_drop] at hlen
        omega
      | cons a t => rfl
    simp only [StakingInstruction.unpack, unpack_u64_eq rest (by omega),
      except_bind_ok, hne, if_false]
    rfl

theorem unpack_tag4_eq (rest : List Nat) (h : rest = []) :
    StakingInstruction.unpack (4 :: rest) =
      Except.ok StakingInstruction.ClaimReward := by
  subst h
  rfl

theorem unpack_tag4_err (rest : List Nat) (h : rest ≠ []) :
    StakingInstruction.unpack (4 :: rest) =
      Except.error CodecError.malformedInstruction := by
  cases rest with
  | nil => exact absurd rfl h
  | cons a t => rfl

theorem unpack_tag_big_err (t : Nat) (rest : List Nat) :
    StakingInstruction.unpack ((t + 5) :: rest) =
      Except.error CodecError.malformedInstruction := by
  rfl

theorem shape_tag0 (rest : List Nat) :
    unpackAcceptedShape (0 :: rest) ↔ rest.length = 89 := by
  simp [unpackAcceptedShape]

theorem shape_tag1 (rest : List Nat) :
    unpackAcceptedShape (1 :: rest) ↔ rest = [] := by
  simp [unpackAcceptedShape, List.length_eq_zero]

theorem shape_tag2 (rest : List Nat) :
    unpackAcceptedShape (2 :: rest) ↔ rest.length = 8 := by
  simp [unpackAcceptedShape]

theorem shape_tag3 (rest : List Nat) :
    unpackAcceptedShape (3 :: rest) ↔ rest.length = 8 := by
  simp [unpackAcceptedShape]

theorem shape_tag4 (rest : List Nat) :
    unpackAcceptedShape (4 :: rest) ↔ rest = [] := by
  simp [unpackAcceptedShape, List.length_eq_zero]

theorem shape_tag_big (t : Nat) (rest : List Nat) :
    ¬ unpackAcceptedShape ((t + 5) :: rest) := by
  simp [unpackAcceptedShape]

/-- C4: `StakingInstruction.unpack` fails, always with the
`MalformedInstruction` error, exactly when the input is empty, the tag byte
is not in `0..=4`, a field read needs more bytes than remain, or bytes remain
after the last field of the recognized tag (equivalently: exactly when the
input is not of an accepted shape); on every other input it succeeds. -/
theorem c4_unpack_error_characterization (input : List Nat) :
    (StakingInstruction.unpack input = Except.error CodecError.malformedInstruction ↔
      ¬ unpackAcceptedShape input) ∧
    (unpackAcceptedShape input →
      ∃ x, StakingInstruction.unpack input = Except.ok x) := by
  cases input with
  | nil =>
    constructor
    · simp only [show StakingInstruction.unpack [] =
        Except.error CodecError.malformedInstruction from rfl, true_iff, eq_self_iff_true]
      simp [unpackAcceptedShape]
    · intro hs
      simp [unpackAcceptedShape] at hs
  | cons tag rest =>
    rcases tag with _ | _ | _ | _ | _ | t
    · rw [shape_tag0]
      by_cases h : rest.length = 89
      · rw [unpack_tag0_eq rest h]
        exact ⟨by simp [h], fun _ => ⟨_, rfl⟩⟩
      · rw [unpack_tag0_err rest h]
        exact ⟨by simp [h], fun hs => absurd hs h⟩
    · rw [shape_tag1]
      by_cases h : rest = []
      · rw [unpack_tag1_eq rest h]
        exact ⟨by simp [h], fun _ => ⟨_, rfl⟩⟩
      · rw [unpack_tag1_err rest h]
        exact ⟨by simp [h], fun hs => absurd hs h⟩
    · rw [shape_tag2]
      by_cases h : rest.length = 8
      · rw [unpack_tag2_eq rest h]
        exact ⟨by simp [h], fun _ => ⟨_, rfl⟩⟩
      · rw [unpack_tag2_err rest h]
        exact ⟨by simp [h], fun hs => absurd hs h⟩
    · rw [shape_tag3]
      by_cases h : rest.length = 8
      · rw [unpack_tag3_eq rest h]
        exact ⟨by simp [h], fun _ => ⟨_, rfl⟩⟩
      · rw [unpack_tag3_err rest h]
        exact ⟨by simp [h], fun hs => absurd hs h⟩
    · rw [shape_tag4]
      by_cases h : rest = []
      · rw [unpack_tag4_eq rest h]
        exact ⟨by simp [h], fun _ => ⟨_, rfl⟩⟩
      · rw [unpack_tag4_err rest h]
        exact ⟨by simp [h], fun hs => absurd hs h⟩
    · rw [unpack_tag_big_err t rest]
      exact ⟨by simp [shape_tag_big t rest], fun hs => absurd hs (shape_tag_big t rest)⟩

/-- C4 witness: the characterization applied at the concrete inputs `[5]`
(unknown tag, must fail) and `[1]` (accepted, must succeed). -/
theorem c4_witness :
    StakingInstruction.unpack [5] = Except.error CodecError.malformedInstruction ∧
    ∃ x, StakingInstruction.unpack [1] = Except.ok x :=
  ⟨(c4_unpack_error_characterization [5]).1.mpr (by simp [unpackAcceptedShape]),
   (c4_unpack_error_characterization [1]).2 (by simp [unpackAcceptedShape])⟩

theorem pow256_sixteen : (256 : Nat) ^ 16 = 2 ^ 128 := by norm_num

theorem drop_append_add {α : Type} (l₁ l₂ : List α) (n m : Nat)
    (h : l₁.length = n) : (l₁ ++ l₂).drop (n + m) = l₂.drop m := by
  subst h
  induction l₁ with
  | nil => simp
  | cons a l ih =>
    rw [List.cons_append, List.length_cons, Nat.add_right_comm,
      List.drop_succ_cons]
    exact ih

theorem stakeAccount_fieldBytes_length (s : StakeAccount) (h : s.Wf) :
    s.fieldBytes.length = 105 := by
  obtain ⟨-, -, h3, -, h5, -⟩ := h
  simp [StakeAccount.fieldBytes, Decimal.packBytes, Decimal.LEN,
    natToLe_length, List.length_append, h3, h5]

theorem stakingPool_fieldBytes_length (p : StakingPool) (h : p.Wf) :
    p.fieldBytes.length = 170 := by
  obtain ⟨-, h2, -, h4, -, h6, -⟩ := h
  simp [StakingPool.fieldBytes, Decimal.packBytes, Decimal.LEN,
    natToLe_length, List.length_append, h2, h4, h6]

/-- C2: a buffer shorter than the record's fixed `LEN` makes decode return
the `BufferTooSmall` error as an ordinary result value, for both record
codecs; the model's decode is a total function, so no unrecoverable fault is
possible. -/
theorem c2_short_buffer_rejected (src : List Nat) :
    (src.length < StakeAccount.LEN →
      StakeAccount.decode src = Except.error CodecError.bufferTooSmall) ∧
    (src.length < StakingPool.LEN →
      StakingPool.decode src = Except.error CodecError.bufferTooSmall) := by
  constructor
  · intro h
    unfold StakeAccount.decode
    rw [if_pos h]
  · intro h
    unfold StakingPool.decode
    rw [if_pos h]

/-- C2 witness: the rejection theorem applied at the empty buffer. -/
theorem c2_witness :
    StakeAccount.decode [] = Except.error CodecError.bufferTooSmall ∧
    StakingPool.decode [] = Except.error CodecError.bufferTooSmall :=
  ⟨(c2_short_buffer_rejected []).1 (by decide),
   (c2_short_buffer_rejected []).2 (by decide)⟩

theorem leToNat_take_one (v : Nat) (rest : List Nat) :
    leToNat ((v :: rest).take 1) = v := by
  simp [List.take, leToNat]

/-- C5: for a buffer of the record's exact length, decode fails with
`UnsupportedVersion` precisely when the leading version byte exceeds
`PROGRAM_VERSION` (= 1); a version byte of `PROGRAM_VERSION` or
`UNINITIALIZED_VERSION` (0) passes the gate and decode succeeds structurally
(the modelled decimal decode never fails). -/
theorem c5_version_gate (v : Nat) (rest1 rest2 : List Nat)
    (h1 : (v :: rest1).length = StakeAccount.LEN)
    (h2 : (v :: rest2).length = StakingPool.LEN) :
    ((StakeAccount.decode (v :: rest1) =
        Except.error CodecError.unsupportedVersion ↔ PROGRAM_VERSION < v) ∧
      (v ≤ PROGRAM_VERSION →
        ∃ r, StakeAccount.decode (v :: rest1) = Except.ok r)) ∧
    ((StakingPool.decode (v :: rest2) =
        Except.error CodecError.unsupportedVersion ↔ PROGRAM_VERSION < v) ∧
      (v ≤ PROGRAM_VERSION →
        ∃ r, StakingPool.decode (v :: rest2) = Except.ok r)) := by
  constructor
  · unfold StakeAccount.decode StakeAccount.unpack_from_slice
    rw [if_neg (by omega), leToNat_take_one]
    by_cases hv : PROGRAM_VERSION < v
    · rw [if_pos hv]
      exact ⟨by simp [hv], fun hle => absurd hv (by omega)⟩
    · rw [if_neg hv]
      exact ⟨by simp [hv], fun _ => ⟨_, rfl⟩⟩
  · unfold StakingPool.decode StakingPool.unpack_from_slice
    rw [if_neg (by omega), leToNat_take_one]
    by_cases hv : PROGRAM_VERSION < v
    · rw [if_pos hv]
      exact ⟨by simp [hv], fun hle => absurd hv (by omega)⟩
    · rw [if_neg hv]
      exact ⟨by simp [hv], fun _ => ⟨_, rfl⟩⟩

/-- C5 witness: the version gate applied at concrete length-`LEN` buffers
with version bytes 2 (fails) and 0 (succeeds). -/
theorem c5_witness :
    StakeAccount.decode (2 :: List.replicate 232 0) =
      Except.error CodecError.unsupportedVersion ∧
    (∃ r, StakeAccount.decode (0 :: List.replicate 232 0) = Except.ok r) ∧
    StakingPool.decode (2 :: List.replicate 297 0) =
      Except.error CodecError.unsupportedVersion ∧
    (∃ r, StakingPool.decode (0 :: List.replicate 297 0) = Except.ok r) :=
  ⟨((c5_version_gate 2 (List.replicate 232 0) (List.replicate 297 0)
      (by simp [StakeAccount.LEN, Decimal.LEN, PUBKEY_BYTES])
      (by simp [StakingPool.LEN, Decimal.LEN, PUBKEY_BYTES])).1.1).mpr (by decide),
   ((c5_version_gate 0 (List.replicate 232 0) (List.replicate 297 0)
      (by simp [StakeAccount.LEN, Decimal.LEN, PUBKEY_BYTES])
      (by simp [StakingPool.LEN, Decimal.LEN, PUBKEY_BYTES])).1.2) (by decide),
   ((c5_version_gate 2 (List.replicate 232 0) (List.replicate 297 0)
      (by simp [StakeAccount.LEN, Decimal.LEN, PUBKEY_BYTES])
      (by simp [StakingPool.LEN, Decimal.LEN, PUBKEY_BYTES])).2.1).mpr (by decide),
   ((c5_version_gate 0 (List.replicate 232 0) (List.replicate 297 0)
      (by simp [StakeAccount.LEN, Decimal.LEN, PUBKEY_BYTES])
      (by simp [StakingPool.LEN, Decimal.LEN, PUBKEY_BYTES])).2.2) (by decide)⟩

/-- C9: for both record types, `is_initialized` is true exactly when the
version field differs from `UNINITIALIZED_VERSION` (= 0); consequently a
record decoded from a buffer whose version byte is 0 reports itself as not
initialized. -/
theorem c9_is_initialized_iff :
    (∀ s : StakeAccount,
      s.is_initialized = true ↔ s.version ≠ UNINITIALIZED_VERSION) ∧
    (∀ p : StakingPool,
      p.is_initialized = true ↔ p.version ≠ UNINITIALIZED_VERSION) ∧
    (∀ rest : List Nat, ∀ r : StakeAccount,
      StakeAccount.decode (0 :: rest) = Except.ok r →
        r.is_initialized = false) ∧
    (∀ rest : List Nat, ∀ r : StakingPool,
      StakingPool.decode (0 :: rest) = Except.ok r →
        r.is_initialized = false) := by
  refine ⟨fun s => ?_, fun p => ?_, fun rest r h => ?_, fun rest r h => ?_⟩
  · simp [StakeAccount.is_initialized]
  · simp [StakingPool.is_initialized]
  · unfold StakeAccount.decode at h
    by_cases hl : (0 :: rest).length < StakeAccount.LEN
    · rw [if_pos hl] at h
      exact absurd h (by simp)
    · rw [if_neg hl] at h
      unfold StakeAccount.unpack_from_slice at h
      rw [leToNat_take_one] at h
      rw [if_neg (by simp [PROGRAM_VERSION])] at h
      have hr := (Except.ok.injEq _ _).mp h
      rw [← hr]
      rfl
  · unfold StakingPool.decode at h
    by_cases hl : (0 :: rest).length < StakingPool.LEN
    · rw [if_pos hl] at h
      exact absurd h (by simp)
    · rw [if_neg hl] at h
      unfold StakingPool.unpack_from_slice at h
      rw [leToNat_take_one] at h
      rw [if_neg (by simp [PROGRAM_VERSION])] at h
      have hr := (Except.ok.injEq _ _).mp h
      rw [← hr]
      rfl

/-- C9 witness: the decoded-uninitialized direction applied at the all-zero
length-`LEN` buffer. -/
theorem c9_witness : zeroStakeAccount.is_initialized = false :=
  c9_is_initialized_iff.2.2.1 (List.replicate 232 0) zeroStakeAccount (by decide)

/-- C7: writing a record into a destination longer than `LEN` succeeds,
preserves the destination's length, and leaves every byte at index `LEN` or
beyond unchanged, for both record codecs. -/
theorem c7_no_write_past_len :
    (∀ s : StakeAccount, s.Wf → ∀ dst : List Nat,
      StakeAccount.LEN < dst.length →
      ∃ out, s.pack_into_slice dst = some out ∧ out.length = dst.length ∧
        out.drop StakeAccount.LEN = dst.drop StakeAccount.LEN) ∧
    (∀ p : StakingPool, p.Wf → ∀ dst : List Nat,
      StakingPool.LEN < dst.length →
      ∃ out, p.pack_into_slice dst = some out ∧ out.length = dst.length ∧
        out.drop StakingPool.LEN = dst.drop StakingPool.LEN) := by
  constructor
  · intro s hwf dst hlen
    have hf := stakeAccount_fieldBytes_length s hwf
    refine ⟨s.fieldBytes ++ dst.drop s.fieldBytes.length, ?_, ?_, ?_⟩
    · unfold StakeAccount.pack_into_slice
      rw [if_neg (by omega)]
    · rw [List.length_append, List.length_drop, hf]
      have : (233 : Nat) ≤ dst.length := by
        simpa [StakeAccount.LEN, Decimal.LEN, PUBKEY_BYTES] using hlen.le
      omega
    · have h233 : StakeAccount.LEN = 105 + 128 := by
        simp [StakeAccount.LEN, Decimal.LEN, PUBKEY_BYTES]
      rw [h233, hf, drop_append_add _ _ 105 128 hf, List.drop_drop]
  · intro p hwf dst hlen
    have hf := stakingPool_fieldBytes_length p hwf
    refine ⟨p.fieldBytes ++ dst.drop p.fieldBytes.length, ?_, ?_, ?_⟩
    · unfold StakingPool.pack_into_slice
      rw [if_neg (by omega)]
    · rw [List.length_append, List.length_drop, hf]
      have : (298 : Nat) ≤ dst.length := by
        simpa [StakingPool.LEN, Decimal.LEN, PUBKEY_BYTES] using hlen.le
      omega
    · have h298 : StakingPool.LEN = 170 + 128 := by
        simp [StakingPool.LEN, Decimal.LEN, PUBKEY_BYTES]
      rw [h298, hf, drop_append_add _ _ 170 128 hf, List.drop_drop]

/-- C7 witness: the frame theorem applied at a concrete stake account and a
destination one byte longer than `LEN`. -/
theorem c7_witness :
    ∃ out, exampleStakeAccount.pack_into_slice (List.replicate 234 5) = some out ∧
      out.length = (List.replicate 234 5 : List Nat).length ∧
      out.drop StakeAccount.LEN = (List.replicate 234 5 : List Nat).drop StakeAccount.LEN :=
  c7_no_write_past_len.1 exampleStakeAccount (by decide) (List.replicate 234 5)
    (by decide)

/-- C1 counterexample: packing a concrete record into an all-ones destination
leaves the first reserved byte (offset 105 for `StakeAccount`, 170 for
`StakingPool`) equal to 1, not 0 — the encoders never write the reserved
region, so it is not zero-filled. -/
theorem c1_counterexample :
    (exampleStakeAccount.pack_into_slice (List.replicate 233 1)).map
      (fun l => l.getD 105 0) = some 1 ∧
    (exampleStakingPool.pack_into_slice (List.replicate 298 1)).map
      (fun l => l.getD 170 0) = some 1 := by
  constructor
  · decide
  · decide

/-- C1 (amended): encoding into a destination of length at least `LEN`
succeeds and leaves every byte of the destination from the end of the written
field region on — in particular the whole 128-byte reserved region —
unchanged, for both record codecs.  (Reserved bytes are zeroed only in
decoded values, not in the encoded buffer.) -/
theorem c1_reserved_region_unchanged :
    (∀ s : StakeAccount, s.Wf → ∀ dst : List Nat,
      StakeAccount.LEN ≤ dst.length →
      ∃ out, s.pack_into_slice dst = some out ∧ out.drop 105 = dst.drop 105) ∧
    (∀ p : StakingPool, p.Wf → ∀ dst : List Nat,
      StakingPool.LEN ≤ dst.length →
      ∃ out, p.pack_into_slice dst = some out ∧ out.drop 170 = dst.drop 170) := by
  constructor
  · intro s hwf dst hlen
    have hf := stakeAccount_fieldBytes_length s hwf
    refine ⟨s.fieldBytes ++ dst.drop s.fieldBytes.length, ?_, ?_⟩
    · unfold StakeAccount.pack_into_slice
      rw [if_neg (by omega)]
    · rw [hf, drop_append_len _ _ hf]
  · intro p hwf dst hlen
    have hf := stakingPool_fieldBytes_length p hwf
    refine ⟨p.fieldBytes ++ dst.drop p.fieldBytes.length, ?_, ?_⟩
    · unfold StakingPool.pack_into_slice
      rw [if_neg (by omega)]
    · rw [hf, drop_append_len _ _ hf]

/-- C1 witness: the amended theorem applied at a concrete stake account and
an all-ones destination of length `LEN`. -/
theorem c1_witness :
    ∃ out, exampleStakeAccount.pack_into_slice (List.replicate 233 1) = some out ∧
      out.drop 105 = (List.replicate 233 1 : List Nat).drop 105 :=
  c1_reserved_region_unchanged.1 exampleStakeAccount (by decide)
    (List.replicate 233 1) (by decide)

theorem Decimal.unpack_pack (d : Decimal) (h : d.wads < 2 ^ 128) :
    Decimal.unpackBytes d.packBytes = d := by
  unfold Decimal.unpackBytes Decimal.packBytes
  rw [leToNat_natToLe_of_lt (by rw [show Decimal.LEN = 16 from rfl, pow256_sixteen]; exact h)]

theorem stakeAccount_decode_fields (ver : Nat) (sr : Decimal) (ow pp : List Nat)
    (da : Nat) (urw : Decimal) (X : List Nat)
    (hver : ver < 256) (hv : ver ≤ PROGRAM_VERSION)
    (hsr : sr.wads < 2 ^ 128) (how : ow.length = 32) (hpp : pp.length = 32)
    (hda : da < 2 ^ 64) (hurw : urw.wads < 2 ^ 128) (hX : 128 ≤ X.length) :
    StakeAccount.decode
      (natToLe 1 ver ++ (sr.packBytes ++ (ow ++ (pp ++
        (natToLe 8 da ++ (urw.packBytes ++ X)))))) =
    Except.ok (StakeAccount.mk ver sr ow pp da urw (List.replicate 32 0)
      (List.replicate 32 0) (List.replicate 32 0) (List.replicate 32 0)) := by
  have hA : (natToLe 1 ver).length = 1 := natToLe_length 1 ver
  have hB : sr.packBytes.length = 16 := by
    simp [Decimal.packBytes, Decimal.LEN, natToLe_length]
  have hE : (natToLe 8 da).length = 8 := natToLe_length 8 da
  have hG : urw.packBytes.length = 16 := by
    simp [Decimal.packBytes, Decimal.LEN, natToLe_length]
  set L : List Nat := natToLe 1 ver ++ (sr.packBytes ++ (ow ++ (pp ++
    (natToLe 8 da ++ (urw.packBytes ++ X))))) with hL
  have hlen : ¬ L.length < StakeAccount.LEN := by
    rw [hL]
    simp [List.length_append, hA, hB, hE, hG, how, hpp, StakeAccount.LEN,
      Decimal.LEN, PUBKEY_BYTES]
    omega
  have e0 : L.take 1 = natToLe 1 ver := by
    rw [hL]
    exact take_append_len _ _ hA
  have d1 : L.drop 1 = sr.packBytes ++ (ow ++ (pp ++
      (natToLe 8 da ++ (urw.packBytes ++ X)))) := by
    rw [hL]
    exact drop_append_len _ _ hA
  have d17 : L.drop 17 = ow ++ (pp ++ (natToLe 8 da ++ (urw.packBytes ++ X))) := by
    rw [show (17 : Nat) = 1 + 16 by norm_num, ← List.drop_drop, d1]
    exact drop_append_len _ _ hB
  have d49 : L.drop 49 = pp ++ (natToLe 8 da ++ (urw.packBytes ++ X)) := by
    rw [show (49 : Nat) = 17 + 32 by norm_num, ← List.drop_drop, d17]
    exact drop_append_len _ _ how
  have d81 : L.drop 81 = natToLe 8 da ++ (urw.packBytes ++ X) := by
    rw [show (81 : Nat) = 49 + 32 by norm_num, ← List.drop_drop, d49]
    exact drop_append_len _ _ hpp
  have d89 : L.drop 89 = urw.packBytes ++ X := by
    rw [show (89 : Nat) = 81 + 8 by norm_num, ← List.drop_drop, d81]
    exact drop_append_len _ _ hE
  unfold StakeAccount.decode StakeAccount.unpack_from_slice
  rw [if_neg hlen, e0,
    leToNat_natToLe_of_lt (show ver < 256 ^ 1 by simpa using hver)]
  rw [if_neg (show ¬ PROGRAM_VERSION < ver from by omega)]
  rw [show Decimal.LEN = 16 from rfl, show PUBKEY_BYTES = 32 from rfl]
  rw [d1, take_append_len _ _ hB, d17, take_append_len _ _ how,
    d49, take_append_len _ _ hpp, d81, take_append_len _ _ hE,
    d89, take_append_len _ _ hG]
  rw [Decimal.unpack_pack sr hsr, Decimal.unpack_pack urw hurw,
    leToNat_natToLe_of_lt (by rw [pow256_eight]; exact hda)]

theorem stakingPool_decode_fields (ver : Nat) (oa aa rtp : List Nat)
    (lu et du ert : Nat) (rps cr : Decimal) (ps bs : Nat) (X : List Nat)
    (hver : ver < 256) (hv : ver ≤ PROGRAM_VERSION)
    (hoa : oa.length = 32) (haa : aa.length = 32) (hrtp : rtp.length = 32)
    (hlu : lu < 2 ^ 64) (het : et < 2 ^ 64) (hdu : du < 2 ^ 64)
    (hert : ert < 2 ^ 64) (hrps : rps.wads < 2 ^ 128) (hcr : cr.wads < 2 ^ 128)
    (hps : ps < 2 ^ 64) (hbs : bs < 256) (hX : 128 ≤ X.length) :
    StakingPool.decode
      (natToLe 1 ver ++ (oa ++ (aa ++ (rtp ++ (natToLe 8 lu ++ (natToLe 8 et ++
        (natToLe 8 du ++ (natToLe 8 ert ++ (rps.packBytes ++ (cr.packBytes ++
        (natToLe 8 ps ++ (natToLe 1 bs ++ X)))))))))))) =
    Except.ok (StakingPool.mk ver oa aa rtp lu et ert du rps cr ps bs
      (List.replicate 32 0) (List.replicate 32 0) (List.replicate 32 0)
      (List.replicate 32 0)) := by
  have hA : (natToLe 1 ver).length = 1 := natToLe_length 1 ver
  have hB1 : rps.packBytes.length = 16 := by
    simp [Decimal.packBytes, Decimal.LEN, natToLe_length]
  have hB2 : cr.packBytes.length = 16 := by
    simp [Decimal.packBytes, Decimal.LEN, natToLe_length]
  set L : List Nat := natToLe 1 ver ++ (oa ++ (aa ++ (rtp ++ (natToLe 8 lu ++
    (natToLe 8 et ++ (natToLe 8 du ++ (natToLe 8 ert ++ (rps.packBytes ++
    (cr.packBytes ++ (natToLe 8 ps ++ (natToLe 1 bs ++ X))))))))))) with hL
  have hlen : ¬ L.length < StakingPool.LEN := by
    rw [hL]
    simp [List.length_append, natToLe_length, hA, hB1, hB2, hoa, haa, hrtp,
      StakingPool.LEN, Decimal.LEN, PUBKEY_BYTES]
    omega
  have e0 : L.take 1 = natToLe 1 ver := by
    rw [hL]
    exact take_append_len _ _ hA
  have d1 : L.drop 1 = oa ++ (aa ++ (rtp ++ (natToLe 8 lu ++ (natToLe 8 et ++
      (natToLe 8 du ++ (natToLe 8 ert ++ (rps.packBytes ++ (cr.packBytes ++
      (natToLe 8 ps ++ (natToLe 1 bs ++ X)))))))))) := by
    rw [hL]
    exact drop_append_len _ _ hA
  have d33 : L.drop 33 = aa ++ (rtp ++ (natToLe 8 lu ++ (natToLe 8 et ++
      (natToLe 8 du ++ (natToLe 8 ert ++ (rps.packBytes ++ (cr.packBytes ++
      (natToLe 8 ps ++ (natToLe 1 bs ++ X))))))))) := by
    rw [show (33 : Nat) = 1 + 32 by norm_num, ← List.drop_drop, d1]
    exact drop_append_len _ _ hoa
  have d65 : L.drop 65 = rtp ++ (natToLe 8 lu ++ (natToLe 8 et ++
      (natToLe 8 du ++ (natToLe 8 ert ++ (rps.packBytes ++ (cr.packBytes ++
      (natToLe 8 ps ++ (natToLe 1 bs ++ X)))))))) := by
    rw [show (65 : Nat) = 33 + 32 by norm_num, ← List.drop_drop, d33]
    exact drop_append_len _ _ haa
  have d97 : L.drop 97 = natToLe 8 lu ++ (natToLe 8 et ++ (natToLe 8 du ++
      (natToLe 8 ert ++ (rps.packBytes ++ (cr.packBytes ++ (natToLe 8 ps ++
      (natToLe 1 bs ++ X))))))) := by
    rw [show (97 : Nat) = 65 + 32 by norm_num, ← List.drop_drop, d65]
    exact drop_append_len _ _ hrtp
  have d105 : L.drop 105 = natToLe 8 et ++ (natToLe 8 du ++ (natToLe 8 ert ++
      (rps.packBytes ++ (cr.packBytes ++ (natToLe 8 ps ++
      (natToLe 1 bs ++ X)))))) := by
    rw [show (105 : Nat) = 97 + 8 by norm_num, ← List.drop_drop, d97]
    exact drop_append_len _ _ (natToLe_length 8 lu)
  have d113 : L.drop 113 = natToLe 8 du ++ (natToLe 8 ert ++ (rps.packBytes ++
      (cr.packBytes ++ (natToLe 8 ps ++ (natToLe 1 bs ++ X))))) := by
    rw [show (113 : Nat) = 105 + 8 by norm_num, ← List.drop_drop, d105]
    exact drop_append_len _ _ (natToLe_length 8 et)
  have d121 : L.drop 121 = natToLe 8 ert ++ (rps.packBytes ++ (cr.packBytes ++
      (natToLe 8 ps ++ (natToLe 1 bs ++ X)))) := by
    rw [show (121 : Nat) = 113 + 8 by norm_num, ← List.drop_drop, d113]
    exact drop_append_len _ _ (natToLe_length 8 du)
  have d129 : L.drop 129 = rps.packBytes ++ (cr.packBytes ++ (natToLe 8 ps ++
      (natToLe 1 bs ++ X))) := by
    rw [show (129 : Nat) = 121 + 8 by norm_num, ← List.drop_drop, d121]
    exact drop_append_len _ _ (natToLe_length 8 ert)
  have d145 : L.drop 145 = cr.packBytes ++ (natToLe 8 ps ++ (natToLe 1 bs ++ X)) := by
    rw [show (145 : Nat) = 129 + 16 by norm_num, ← List.drop_drop, d129]
    exact drop_append_len _ _ hB1
  have d161 : L.drop 161 = natToLe 8 ps ++ (natToLe 1 bs ++ X) := by
    rw [show (161 : Nat) = 145 + 16 by norm_num, ← List.drop_drop, d145]
    exact drop_append_len _ _ hB2
  have d169 : L.drop 169 = natToLe 1 bs ++ X := by
    rw [show (169 : Nat) = 161 + 8 by norm_num, ← List.drop_drop, d161]
    exact drop_append_len _ _ (natToLe_length 8 ps)
  unfold StakingPool.decode StakingPool.unpack_from_slice
  rw [if_neg hlen, e0,
    leToNat_natToLe_of_lt (show ver < 256 ^ 1 by simpa using hver)]
  rw [if_neg (show ¬ PROGRAM_VERSION < ver from by omega)]
  rw [show Decimal.LEN = 16 from rfl, show PUBKEY_BYTES = 32 from rfl]
  rw [d1, take_append_len _ _ hoa, d33, take_append_len _ _ haa,
    d65, take_append_len _ _ hrtp, d97, take_append_len _ _ (natToLe_length 8 lu),
    d105, take_append_len _ _ (natToLe_length 8 et),
    d113, take_append_len _ _ (natToLe_length 8 du),
    d121, take_append_len _ _ (natToLe_length 8 ert),
    d129, take_append_len _ _ hB1, d145, take_append_len _ _ hB2,
    d161, take_append_len _ _ (natToLe_length 8 ps),
    d169, take_append_len _ _ (natToLe_length 1 bs)]
  rw [Decimal.unpack_pack rps hrps, Decimal.unpack_pack cr hcr,
    leToNat_natToLe_of_lt (by rw [pow256_eight]; exact hlu),
    leToNat_natToLe_of_lt (by rw [pow256_eight]; exact het),
    leToNat_natToLe_of_lt (by rw [pow256_eight]; exact hert),
    leToNat_natToLe_of_lt (by rw [pow256_eight]; exact hdu),
    leToNat_natToLe_of_lt (by rw [pow256_eight]; exact hps),
    leToNat_natToLe_of_lt (show bs < 256 ^ 1 by simpa using hbs)]

/-- C6 counterexample: a well-formed stake account with all reserved fields
zero but version `PROGRAM_VERSION + 1` encodes fine, yet decoding the
encoded buffer returns `UnsupportedVersion` instead of the record — the
claimed unconditional round-trip fails. -/
theorem c6_counterexample :
    (exampleStakeAccountV2.pack_into_slice (List.replicate 233 0)).map
      StakeAccount.decode = some (Except.error CodecError.unsupportedVersion) ∧
    (exampleStakeAccountV2.pack_into_slice (List.replicate 233 0)).map
      StakeAccount.decode ≠ some (Except.ok exampleStakeAccountV2) := by
  constructor
  · decide
  · decide

/-- C6 (amended): for every record value whose reserved fields are zero and
whose version does not exceed `PROGRAM_VERSION`, decoding the encoded buffer
returns the record, for both record types and any destination of length at
least `LEN`. -/
theorem c6_record_roundtrip :
    (∀ s : StakeAccount, s.Wf → s.version ≤ PROGRAM_VERSION →
      s.reserve_fields1 = List.replicate 32 0 →
      s.reserve_fields2 = List.replicate 32 0 →
      s.reserve_fields3 = List.replicate 32 0 →
      s.reserve_fields4 = List.replicate 32 0 →
      ∀ dst : List Nat, StakeAccount.LEN ≤ dst.length →
        (s.pack_into_slice dst).map StakeAccount.decode =
          some (Except.ok s)) ∧
    (∀ p : StakingPool, p.Wf → p.version ≤ PROGRAM_VERSION →
      p.reserve_fields1 = List.replicate 32 0 →
      p.reserve_fields2 = List.replicate 32 0 →
      p.reserve_fields3 = List.replicate 32 0 →
      p.reserve_fields4 = List.replicate 32 0 →
      ∀ dst : List Nat, StakingPool.LEN ≤ dst.length →
        (p.pack_into_slice dst).map StakingPool.decode =
          some (Except.ok p)) := by
  constructor
  · intro s hwf hv h1 h2 h3 h4 dst hlen
    obtain ⟨ver, sr, ow, pp, da, urw, r1, r2, r3, r4⟩ := s
    obtain ⟨hver, hsr, how, -, hpp, -, hda, hurw, -⟩ := hwf
    simp only at h1 h2 h3 h4 hv
    subst h1 h2 h3 h4
    have hlen' : 233 ≤ dst.length := by
      simpa [StakeAccount.LEN, Decimal.LEN, PUBKEY_BYTES] using hlen
    have hf : (StakeAccount.mk ver sr ow pp da urw (List.replicate 32 0)
        (List.replicate 32 0) (List.replicate 32 0)
        (List.replicate 32 0)).fieldBytes.length = 105 := by
      simp [StakeAccount.fieldBytes, Decimal.packBytes, Decimal.LEN,
        natToLe_length, List.length_append, how, hpp]
    unfold StakeAccount.pack_into_slice
    rw [if_neg (Nat.not_lt.mpr hlen), hf, Option.map_some']
    simp only [StakeAccount.fieldBytes, List.append_assoc]
    exact congrArg some (stakeAccount_decode_fields ver sr ow pp da urw
      (dst.drop 105) hver hv hsr how hpp hda hurw
      (by simp [List.length_drop]; omega))
  · intro p hwf hv h1 h2 h3 h4 dst hlen
    obtain ⟨ver, oa, aa, rtp, lu, et, ert, du, rps, cr, ps, bs, r1, r2, r3, r4⟩ := p
    obtain ⟨hver, hoa, -, haa, -, hrtp, -, hlu, het, hdu, hert, hrps, hcr,
      hps, hbs, -⟩ := hwf
    simp only at h1 h2 h3 h4 hv
    subst h1 h2 h3 h4
    have hlen' : 298 ≤ dst.length := by
      simpa [StakingPool.LEN, Decimal.LEN, PUBKEY_BYTES] using hlen
    have hf : (StakingPool.mk ver oa aa rtp lu et ert du rps cr ps bs
        (List.replicate 32 0) (List.replicate 32 0) (List.replicate 32 0)
        (List.replicate 32 0)).fieldBytes.length = 170 := by
      simp [StakingPool.fieldBytes, Decimal.packBytes, Decimal.LEN,
        natToLe_length, List.length_append, hoa, haa, hrtp]
    unfold StakingPool.pack_into_slice
    rw [if_neg (Nat.not_lt.mpr hlen), hf, Option.map_some']
    simp only [StakingPool.fieldBytes, List.append_assoc]
    exact congrArg some (stakingPool_decode_fields ver oa aa rtp lu et du ert
      rps cr ps bs (dst.drop 170) hver hv hoa haa hrtp hlu het hdu hert hrps
      hcr hps hbs (by simp [List.length_drop]; omega))

/-- C6 witness: the amended round-trip applied at concrete records and
all-zero destinations of length `LEN`. -/
theorem c6_witness :
    (exampleStakeAccount.pack_into_slice (List.replicate 233 0)).map
      StakeAccount.decode = some (Except.ok exampleStakeAccount) ∧
    (exampleStakingPool.pack_into_slice (List.replicate 298 0)).map
      StakingPool.decode = some (Except.ok exampleStakingPool) :=
  ⟨c6_record_roundtrip.1 exampleStakeAccount (by decide) (by decide)
      rfl rfl rfl rfl (List.replicate 233 0) (by decide),
   c6_record_roundtrip.2 exampleStakingPool (by decide) (by decide)
      rfl rfl rfl rfl (List.replicate 298 0) (by decide)⟩
